import Mathlib

/-!
Verification of the client-side analytics pipeline in
`frontend/assets/js/analytics.js` (class `AnalyticsManager`).

The JavaScript is shallowly embedded: JS numbers relevant to the claims are
modelled as exact rationals (plus `NaN`/`±Infinity` where the scroll-depth
computation can produce them), JS objects as insertion-ordered association
lists where property read returns the value of the *last* assignment of the
key (which is exactly what a later duplicate key in an object literal /
spread leaves behind), and the stateful `AnalyticsManager` as explicit state
passing.  Network outcomes (`fetch` succeeding with a 2xx response or not)
are supplied as oracle booleans.
-/

namespace AnalyticsJS

/-- A JSON-serialisable JS value, as far as the analytics events need. -/
inductive JSVal where
  | str (s : String)
  | num (q : ℚ)
  | bool (b : Bool)
deriving DecidableEq, Repr

/-- A JS object: the sequence of property assignments that built it, in
evaluation order.  An object literal with spreads evaluates to exactly this
list; reading a property returns the value of the last assignment. -/
abbrev JSObj := List (String × JSVal)

/-- Property read: the value of the last assignment of key `k`, if any. -/
def objGet (o : JSObj) (k : String) : Option JSVal :=
  o.foldl (fun acc p => if p.1 = k then some p.2 else acc) none

theorem objGet_go (k : String) :
    ∀ (b : JSObj) (acc : Option JSVal),
      b.foldl (fun acc p => if p.1 = k then some p.2 else acc) acc
        = match objGet b k with
          | some v => some v
          | none => acc := by
  intro b
  induction b with
  | nil => intro acc; simp [objGet]
  | cons p bs ih =>
    intro acc
    simp only [List.foldl_cons, objGet] at *
    rw [ih, ih (if p.1 = k then some p.2 else none)]
    cases h : (bs.foldl (fun acc p => if p.1 = k then some p.2 else acc) none) <;>
      (simp [objGet, h]; try (split <;> simp))

theorem objGet_append (a b : JSObj) (k : String) :
    objGet (a ++ b) k
      = match objGet b k with
        | some v => some v
        | none => objGet a k := by
  simp only [objGet, List.foldl_append]
  exact objGet_go k b _

/-- `AnalyticsManager.trackEvent` (analytics.js lines 256-263): the event
envelope `{event, session_id, timestamp, page_url, ...eventData}`.  The
payload is spread *after* the envelope fields, so its assignments come last
in evaluation order. -/
def buildEvent (sessionId timestamp pageUrl : String) (name : String)
    (payload : JSObj) : JSObj :=
  [("event", JSVal.str name),
   ("session_id", JSVal.str sessionId),
   ("timestamp", JSVal.str timestamp),
   ("page_url", JSVal.str pageUrl)] ++ payload

/-- C9: because the payload is spread after the envelope fields, a payload
key `event`, `session_id`, `timestamp` or `page_url` overrides the envelope
field in the recorded event (e.g. a payload `session_id` of `"x"` wins over
the session's generated id); when the payload lacks the key, the envelope
value (event name, session id, capture timestamp, page URL) is read. -/
theorem payload_overrides_envelope (sid ts url name : String) (payload : JSObj) :
    objGet (buildEvent sid ts url name payload) "event"
        = some ((objGet payload "event").getD (JSVal.str name))
  ∧ objGet (buildEvent sid ts url name payload) "session_id"
        = some ((objGet payload "session_id").getD (JSVal.str sid))
  ∧ objGet (buildEvent sid ts url name payload) "timestamp"
        = some ((objGet payload "timestamp").getD (JSVal.str ts))
  ∧ objGet (buildEvent sid ts url name payload) "page_url"
        = some ((objGet payload "page_url").getD (JSVal.str url)) := by
  refine ⟨?_, ?_, ?_, ?_⟩ <;>
    (rw [buildEvent, objGet_append]
     cases h : objGet payload _ <;> simp [h, objGet])

/-- The `input` listener (analytics.js lines 85-93): for an `input` or
`textarea` change it records `form_interaction` with the element type, the
element name (`e.target.name || e.target.id`, the id when the name is the
empty string) and `has_value = value.length > 0`; the value itself is not
put in the event. -/
def formInteractionEvent (sid ts url : String)
    (elementType elementName elementId value : String) : JSObj :=
  buildEvent sid ts url "form_interaction"
    [("element_type", JSVal.str elementType),
     ("element_name", JSVal.str (if elementName = "" then elementId else elementName)),
     ("has_value", JSVal.bool (decide (0 < value.length)))]

/-- C8: the `form_interaction` event carries the element type, the element
name and a boolean saying whether the field has a value, and never the
value itself: two runs that differ only in the (non-empty) field contents
produce identical events. -/
theorem form_interaction_value_independent (sid ts url : String)
    (elementType elementName elementId v1 v2 : String)
    (h1 : 0 < v1.length) (h2 : 0 < v2.length) :
    formInteractionEvent sid ts url elementType elementName elementId v1
      = formInteractionEvent sid ts url elementType elementName elementId v2
  ∧ objGet (formInteractionEvent sid ts url elementType elementName elementId v1)
        "element_type" = some (JSVal.str elementType)
  ∧ objGet (formInteractionEvent sid ts url elementType elementName elementId v1)
        "element_name"
      = some (JSVal.str (if elementName = "" then elementId else elementName))
  ∧ objGet (formInteractionEvent sid ts url elementType elementName elementId v1)
        "has_value" = some (JSVal.bool true) := by
  refine ⟨?_, ?_, ?_, ?_⟩
  · simp [formInteractionEvent, h1, h2]
  · simp [formInteractionEvent, buildEvent, objGet]
  · simp [formInteractionEvent, buildEvent, objGet]
  · simp [formInteractionEvent, buildEvent, objGet, h1]

/-- Witness for C8 at concrete inputs: values "a" and "bb" are both
non-empty and yield the very same event. -/
theorem form_interaction_value_independent_witness :
    formInteractionEvent "s1" "t1" "u1" "text" "email" "" "a"
      = formInteractionEvent "s1" "t1" "u1" "text" "email" "" "bb"
  ∧ objGet (formInteractionEvent "s1" "t1" "u1" "text" "email" "" "a")
        "element_type" = some (JSVal.str "text")
  ∧ objGet (formInteractionEvent "s1" "t1" "u1" "text" "email" "" "a")
        "element_name" = some (JSVal.str (if "email" = "" then "" else "email"))
  ∧ objGet (formInteractionEvent "s1" "t1" "u1" "text" "email" "" "a")
        "has_value" = some (JSVal.bool true) :=
  form_interaction_value_independent "s1" "t1" "u1" "text" "email" "" "a" "bb"
    (by decide) (by decide)

/-! ### Batched event queue (`trackEvent` / `sendAnalytics`) -/

/-- The mutable state of an `AnalyticsManager`, with observation fields for
verification.  `events` is `this.events`, the pending queue.  `sent` records
the batches that were acknowledged by the collector with a 2xx response,
`calls` the number of network calls attempted, `total` the number of events
ever recorded and `allEvents` every event ever recorded (the last three are
pure observations, derivable from the history; the code never reads them). -/
structure AState where
  events : List JSObj
  sent : List (List JSObj)
  calls : Nat
  total : Nat
  allEvents : List JSObj
deriving DecidableEq, Repr

/-- State of a freshly constructed manager, before any event. -/
def initState : AState :=
  { events := [], sent := [], calls := 0, total := 0, allEvents := [] }

/-- `AnalyticsManager.sendAnalytics` (analytics.js lines 280-311): no call
when the queue is empty; otherwise one `fetch`; on a 2xx response
(`response.ok`, oracle `ok = true`) the queue is cleared, on a non-2xx
response or a network error it is kept for retry. -/
def sendAnalytics (ok : Bool) (s : AState) : AState :=
  if s.events.isEmpty then s
  else if ok then
    { s with events := [], sent := s.sent ++ [s.events], calls := s.calls + 1 }
  else { s with calls := s.calls + 1 }

/-- One call to `trackEvent`: the per-call capture context (`new Date()`
timestamp, `window.location.href`), the event name and the payload. -/
structure Call where
  timestamp : String
  pageUrl : String
  name : String
  payload : JSObj
deriving DecidableEq, Repr

/-- The event a call records, given the session id. -/
def mkEv (sid : String) (c : Call) : JSObj :=
  buildEvent sid c.timestamp c.pageUrl c.name c.payload

/-- `AnalyticsManager.trackEvent` (analytics.js lines 256-278): build the
event, push it onto the queue, and flush when the queue length is ≥ 10.
`ok` is the network oracle for the flush, if one happens. -/
def trackEvent (sid : String) (c : Call) (ok : Bool) (s : AState) : AState :=
  let ev := mkEv sid c
  let s1 : AState :=
    { s with events := s.events ++ [ev], total := s.total + 1,
             allEvents := s.allEvents ++ [ev] }
  if 10 ≤ s1.events.length then sendAnalytics ok s1 else s1

/-- A sequence of `trackEvent` calls, all flush attempts answered by the
same oracle value `ok`. -/
def runTrack (sid : String) (ok : Bool) (cs : List Call) (s : AState) : AState :=
  cs.foldl (fun s c => trackEvent sid c ok s) s

/-- The `beforeunload` listener (analytics.js lines 67-73): record
`page_unload` with `total_time_spent = Date.now() - this.startTime` and
`total_events = this.events.length`, then call `sendAnalytics`. -/
def beforeUnload (sid ts url : String) (now startTime : ℚ) (ok1 ok2 : Bool)
    (s : AState) : AState :=
  let s1 := trackEvent sid
    { timestamp := ts, pageUrl := url, name := "page_unload",
      payload := [("total_time_spent", JSVal.num (now - startTime)),
                  ("total_events", JSVal.num (s.events.length : ℚ))] } ok1 s
  sendAnalytics ok2 s1

theorem runTrack_nil (sid : String) (ok : Bool) (s : AState) :
    runTrack sid ok [] s = s := rfl

theorem runTrack_cons (sid : String) (ok : Bool) (c : Call) (cs : List Call)
    (s : AState) :
    runTrack sid ok (c :: cs) s = runTrack sid ok cs (trackEvent sid c ok s) := rfl

/-- While the queue stays below 10, `trackEvent` only appends: no network
call is made and nothing is sent. -/
theorem runTrack_no_flush (sid : String) (ok : Bool) :
    ∀ (cs : List Call) (s : AState), s.events.length + cs.length ≤ 9 →
      runTrack sid ok cs s
        = { s with events := s.events ++ cs.map (mkEv sid),
                   total := s.total + cs.length,
                   allEvents := s.allEvents ++ cs.map (mkEv sid) } := by
  intro cs
  induction cs with
  | nil => intro s _; simp [runTrack]
  | cons c cs ih =>
    intro s hlen
    rw [runTrack_cons]
    have hstep : trackEvent sid c ok s
        = { s with events := s.events ++ [mkEv sid c], total := s.total + 1,
                   allEvents := s.allEvents ++ [mkEv sid c] } := by
      simp only [trackEvent]
      rw [if_neg]
      simp only [List.length_append, List.length_cons, List.length_nil]
      simp only [List.length_cons] at hlen
      omega
    rw [hstep, ih]
    · have harith : s.total + 1 + cs.length = s.total + (cs.length + 1) := by omega
      simp only [List.map_cons, List.append_assoc, List.singleton_append,
        List.length_cons, harith]
    · simp only [List.length_append, List.length_cons, List.length_nil]
      simp only [List.length_cons] at hlen
      omega

/-- On failure the flush never clears anything, so a run of `trackEvent`
calls whose flush attempts all fail just appends the new events; nothing
new is acknowledged. -/
theorem runTrack_fail (sid : String) :
    ∀ (cs : List Call) (s : AState),
      (runTrack sid false cs s).events = s.events ++ cs.map (mkEv sid)
    ∧ (runTrack sid false cs s).sent = s.sent := by
  intro cs
  induction cs with
  | nil => intro s; simp [runTrack]
  | cons c cs ih =>
    intro s
    rw [runTrack_cons]
    have hq : (trackEvent sid c false s).events = s.events ++ [mkEv sid c]
        ∧ (trackEvent sid c false s).sent = s.sent := by
      simp only [trackEvent]
      split
      · simp only [sendAnalytics]
        rw [if_neg (by simp)]
        simp
      · simp
    obtain ⟨h1, h2⟩ := ih (trackEvent sid c false s)
    rw [h1, h2, hq.1, hq.2]
    simp

/-- C1: recording events never contacts the collector while fewer than 10
are pending; the call that makes the queue reach 10 triggers exactly one
flush carrying all 10 pending events, and after a 2xx response the pending
queue is empty. -/
theorem batch_flush_at_ten (sid : String) (cs : List Call) (hn : cs.length = 9)
    (c : Call) (ok : Bool) :
    (runTrack sid ok cs initState).calls = 0
  ∧ (runTrack sid ok cs initState).sent = []
  ∧ (runTrack sid ok cs initState).events.length = 9
  ∧ (trackEvent sid c true (runTrack sid ok cs initState)).calls = 1
  ∧ (trackEvent sid c true (runTrack sid ok cs initState)).sent
      = [cs.map (mkEv sid) ++ [mkEv sid c]]
  ∧ (trackEvent sid c true (runTrack sid ok cs initState)).events = [] := by
  have h9 : (initState).events.length + cs.length ≤ 9 := by
    simp [initState, hn]
  rw [runTrack_no_flush sid ok cs initState h9]
  have hmap : (cs.map (mkEv sid)).length = 9 := by simp [hn]
  refine ⟨rfl, rfl, by simp [initState, hn], ?_, ?_, ?_⟩ <;>
    (simp only [trackEvent, initState, List.nil_append]
     rw [if_pos (by simp [hmap])]
     simp [sendAnalytics, List.isEmpty_iff])

/-- Witness for C1: nine concrete events, then a tenth. -/
theorem batch_flush_at_ten_witness :
    (runTrack "s" true (List.replicate 9 (Call.mk "t" "u" "e" [])) initState).calls = 0
  ∧ (runTrack "s" true (List.replicate 9 (Call.mk "t" "u" "e" [])) initState).sent = []
  ∧ (runTrack "s" true (List.replicate 9 (Call.mk "t" "u" "e" [])) initState).events.length = 9
  ∧ (trackEvent "s" (Call.mk "t2" "u" "last" []) true
      (runTrack "s" true (List.replicate 9 (Call.mk "t" "u" "e" [])) initState)).calls = 1
  ∧ (trackEvent "s" (Call.mk "t2" "u" "last" []) true
      (runTrack "s" true (List.replicate 9 (Call.mk "t" "u" "e" [])) initState)).sent
      = [(List.replicate 9 (Call.mk "t" "u" "e" [])).map (mkEv "s")
          ++ [mkEv "s" (Call.mk "t2" "u" "last" [])]]
  ∧ (trackEvent "s" (Call.mk "t2" "u" "last" []) true
      (runTrack "s" true (List.replicate 9 (Call.mk "t" "u" "e" [])) initState)).events
      = [] :=
  batch_flush_at_ten "s" (List.replicate 9 (Call.mk "t" "u" "e" [])) (by decide)
    (Call.mk "t2" "u" "last" []) true

/-- C3: a failed flush (network error or non-2xx) retains the whole queue;
after further events are recorded (their own flush attempts also failing),
the next successful flush delivers the union of the retained events and the
events recorded in between, in order, and empties the queue. -/
theorem failed_flush_retains_then_delivers_union (sid : String) (s : AState)
    (h : s.events ≠ []) (cs : List Call) :
    (sendAnalytics false s).events = s.events
  ∧ (sendAnalytics false s).sent = s.sent
  ∧ (sendAnalytics true (runTrack sid false cs (sendAnalytics false s))).events = []
  ∧ (sendAnalytics true (runTrack sid false cs (sendAnalytics false s))).sent
      = s.sent ++ [s.events ++ cs.map (mkEv sid)] := by
  have hfail : sendAnalytics false s = { s with calls := s.calls + 1 } := by
    rw [sendAnalytics, if_neg (by simp [List.isEmpty_iff, h])]
    simp
  obtain ⟨hq, hs⟩ := runTrack_fail sid cs { s with calls := s.calls + 1 }
  simp only at hq hs
  have hne : ¬ ((runTrack sid false cs
      { s with calls := s.calls + 1 }).events.isEmpty = true) := by
    rw [List.isEmpty_iff, hq]
    intro hcon
    exact h (List.append_eq_nil.mp hcon).1
  refine ⟨by rw [hfail], by rw [hfail], ?_, ?_⟩
  · rw [hfail, sendAnalytics, if_neg hne, if_pos rfl]
  · rw [hfail, sendAnalytics, if_neg hne, if_pos rfl]
    simp [hq, hs]

/-- Witness for C3: one retained event, one event recorded in between. -/
theorem failed_flush_retains_then_delivers_union_witness :
    (sendAnalytics false
        { events := [mkEv "s" (Call.mk "t" "u" "e" [])], sent := [], calls := 0,
          total := 1, allEvents := [mkEv "s" (Call.mk "t" "u" "e" [])] }).events
      = [mkEv "s" (Call.mk "t" "u" "e" [])]
  ∧ (sendAnalytics false
        { events := [mkEv "s" (Call.mk "t" "u" "e" [])], sent := [], calls := 0,
          total := 1, allEvents := [mkEv "s" (Call.mk "t" "u" "e" [])] }).sent = []
  ∧ (sendAnalytics true (runTrack "s" false [Call.mk "t2" "u" "e2" []]
        (sendAnalytics false
          { events := [mkEv "s" (Call.mk "t" "u" "e" [])], sent := [], calls := 0,
            total := 1, allEvents := [mkEv "s" (Call.mk "t" "u" "e" [])] }))).events
      = []
  ∧ (sendAnalytics true (runTrack "s" false [Call.mk "t2" "u" "e2" []]
        (sendAnalytics false
          { events := [mkEv "s" (Call.mk "t" "u" "e" [])], sent := [], calls := 0,
            total := 1, allEvents := [mkEv "s" (Call.mk "t" "u" "e" [])] }))).sent
      = [] ++ [[mkEv "s" (Call.mk "t" "u" "e" [])]
                ++ [Call.mk "t2" "u" "e2" []].map (mkEv "s")] :=
  failed_flush_retains_then_delivers_union "s"
    { events := [mkEv "s" (Call.mk "t" "u" "e" [])], sent := [], calls := 0,
      total := 1, allEvents := [mkEv "s" (Call.mk "t" "u" "e" [])] }
    (by simp) [Call.mk "t2" "u" "e2" []]

/-! ### Engagement score (`calculateEngagementScore`) -/

/-- `new Set(this.events.filter(e => e.event === 'navigation').map(e =>
e.target_section)).size` (analytics.js lines 352-355): the number of
distinct `target_section` values among the `navigation` events of the given
event list. -/
def distinctNavSections (events : List JSObj) : Nat :=
  ((events.filter fun e => objGet e "event" = some (JSVal.str "navigation")).map
      fun e => objGet e "target_section").dedup.length

/-- `AnalyticsManager.calculateEngagementScore` (analytics.js lines
349-364).  It reads `this.events` — the *pending* queue — so the event
count and the visited sections are computed over the events not yet
successfully flushed. -/
def calculateEngagementScore (now startTime : ℚ) (events : List JSObj) : ℤ :=
  let timeSpent := now - startTime
  let eventsCount := events.length
  let sectionsVisited := distinctNavSections events
  let score : ℚ := 0
  let score := score + min (timeSpent / (60 * 1000)) 10 * 10
  let score := score + min (eventsCount : ℚ) 50 * 2
  let score := score + (sectionsVisited : ℚ) * 20
  round score

/-- The engagement-score formula exactly as claim C5 words it, where
`eventCount` is meant as the total number of events recorded in the session
and `distinctSections` counts distinct navigation target sections. -/
def claimEngagementScore (minutesElapsed : ℚ)
    (eventCount distinctSections : Nat) : ℤ :=
  round (min minutesElapsed 10 * 10 + min (eventCount : ℚ) 50 * 2
    + (distinctSections : ℚ) * 20)

/-- Counterexample to C5: a session that records 10 events (one navigation
event among them) whose flush succeeds has recorded 10 events in total and
visited 1 distinct section, but `calculateEngagementScore` runs over the
now-empty pending queue: at 5 minutes elapsed it returns 50, while the
claim's formula with the session totals gives 90. -/
theorem engagement_score_counterexample :
    (runTrack "s" true
        (Call.mk "t" "u" "navigation" [("target_section", JSVal.str "#about")]
          :: List.replicate 9 (Call.mk "t" "u" "e" [])) initState).total = 10
  ∧ distinctNavSections (runTrack "s" true
        (Call.mk "t" "u" "navigation" [("target_section", JSVal.str "#about")]
          :: List.replicate 9 (Call.mk "t" "u" "e" [])) initState).allEvents = 1
  ∧ (runTrack "s" true
        (Call.mk "t" "u" "navigation" [("target_section", JSVal.str "#about")]
          :: List.replicate 9 (Call.mk "t" "u" "e" [])) initState).events = []
  ∧ calculateEngagementScore 300000 0 (runTrack "s" true
        (Call.mk "t" "u" "navigation" [("target_section", JSVal.str "#about")]
          :: List.replicate 9 (Call.mk "t" "u" "e" [])) initState).events = 50
  ∧ claimEngagementScore 5 10 1 = 90
  ∧ (50 : ℤ) ≠ 90 := by
  refine ⟨by decide, by decide, by decide, ?_, ?_, by decide⟩
  · have hev : (runTrack "s" true
        (Call.mk "t" "u" "navigation" [("target_section", JSVal.str "#about")]
          :: List.replicate 9 (Call.mk "t" "u" "e" [])) initState).events = [] := by
      decide
    rw [hev, calculateEngagementScore]
    norm_num [distinctNavSections, round_eq]
  · rw [claimEngagementScore]
    norm_num [round_eq]

/-- C5 amended: the engagement score equals
`round(min(minutesElapsed,10)*10 + min(eventCount,50)*2 +
distinctSectionsVisited*20)` where `eventCount` is the number of *pending*
(not yet successfully flushed) events and `distinctSectionsVisited` counts
distinct navigation target sections among the pending events; with 5
minutes elapsed and 20 pending events of which two are navigation events to
two distinct sections, the score is 130. -/
theorem engagement_score_of_pending_queue (now startTime : ℚ)
    (events : List JSObj) :
    calculateEngagementScore now startTime events
      = claimEngagementScore ((now - startTime) / (60 * 1000)) events.length
          (distinctNavSections events)
  ∧ calculateEngagementScore 300000 0 (runTrack "s" false
        (Call.mk "t" "u" "navigation" [("target_section", JSVal.str "#about")]
          :: Call.mk "t" "u" "navigation" [("target_section", JSVal.str "#skills")]
          :: List.replicate 18 (Call.mk "t" "u" "e" [])) initState).events
      = 130 := by
  constructor
  · rw [calculateEngagementScore, claimEngagementScore]
    congr 1
    ring
  · have hq : (runTrack "s" false
        (Call.mk "t" "u" "navigation" [("target_section", JSVal.str "#about")]
          :: Call.mk "t" "u" "navigation" [("target_section", JSVal.str "#skills")]
          :: List.replicate 18 (Call.mk "t" "u" "e" [])) initState).events.length
        = 20 := by decide
    have hs : distinctNavSections (runTrack "s" false
        (Call.mk "t" "u" "navigation" [("target_section", JSVal.str "#about")]
          :: Call.mk "t" "u" "navigation" [("target_section", JSVal.str "#skills")]
          :: List.replicate 18 (Call.mk "t" "u" "e" [])) initState).events
        = 2 := by decide
    rw [calculateEngagementScore, hq, hs]
    norm_num [round_eq]

/-! ### Page unload (`beforeunload` listener) -/

/-- Counterexample to C7: a session that recorded 10 events whose batch was
flushed successfully has an empty pending queue, so the `page_unload` event
it then emits carries `total_events = 0`, not the 10 events recorded over
the whole session. -/
theorem page_unload_counterexample :
    (runTrack "s" true (List.replicate 10 (Call.mk "t" "u" "e" [])) initState).total
      = 10
  ∧ (runTrack "s" true (List.replicate 10 (Call.mk "t" "u" "e" [])) initState).events
      = []
  ∧ objGet ((beforeUnload "s" "t" "u" 600000 0 true true
        (runTrack "s" true (List.replicate 10 (Call.mk "t" "u" "e" [])) initState)).sent.getLast?.getD []
        |>.getLast?.getD []) "total_events"
      = some (JSVal.num 0)
  ∧ (JSVal.num 0 ≠ JSVal.num 10) := by
  refine ⟨by decide, by decide, by decide, by decide⟩

/-- C7 amended: the `page_unload` event carries the total session duration
(`Date.now() - this.startTime`) and the length of the *pending* queue at
unload time (the events not yet successfully flushed, not the whole-session
total, and not counting the unload event itself), and is followed by an
immediate flush attempt that delivers the pending events plus the unload
event. -/
theorem page_unload_reports_pending_count (sid ts url : String)
    (now startTime : ℚ) (s : AState) (h : s.events.length ≤ 8) :
    objGet (buildEvent sid ts url "page_unload"
        [("total_time_spent", JSVal.num (now - startTime)),
         ("total_events", JSVal.num (s.events.length : ℚ))]) "total_time_spent"
      = some (JSVal.num (now - startTime))
  ∧ objGet (buildEvent sid ts url "page_unload"
        [("total_time_spent", JSVal.num (now - startTime)),
         ("total_events", JSVal.num (s.events.length : ℚ))]) "total_events"
      = some (JSVal.num (s.events.length : ℚ))
  ∧ beforeUnload sid ts url now startTime true true s
      = { s with
          events := [],
          sent := s.sent ++ [s.events ++ [buildEvent sid ts url "page_unload"
            [("total_time_spent", JSVal.num (now - startTime)),
             ("total_events", JSVal.num (s.events.length : ℚ))]]],
          calls := s.calls + 1,
          total := s.total + 1,
          allEvents := s.allEvents ++ [buildEvent sid ts url "page_unload"
            [("total_time_spent", JSVal.num (now - startTime)),
             ("total_events", JSVal.num (s.events.length : ℚ))]] } := by
  refine ⟨by simp [buildEvent, objGet], by simp [buildEvent, objGet], ?_⟩
  rw [beforeUnload]
  have hstep : trackEvent sid
      { timestamp := ts, pageUrl := url, name := "page_unload",
        payload := [("total_time_spent", JSVal.num (now - startTime)),
                    ("total_events", JSVal.num (s.events.length : ℚ))] } true s
      = { s with
          events := s.events ++ [buildEvent sid ts url "page_unload"
            [("total_time_spent", JSVal.num (now - startTime)),
             ("total_events", JSVal.num (s.events.length : ℚ))]],
          total := s.total + 1,
          allEvents := s.allEvents ++ [buildEvent sid ts url "page_unload"
            [("total_time_spent", JSVal.num (now - startTime)),
             ("total_events", JSVal.num (s.events.length : ℚ))]] } := by
    rw [trackEvent]
    simp only [mkEv]
    rw [if_neg]
    simp only [List.length_append, List.length_cons, List.length_nil]
    omega
  rw [hstep, sendAnalytics,
    if_neg (by simp [List.isEmpty_iff]), if_pos rfl]

/-- Witness for C7's amended statement: a fresh session (empty queue)
unloading at time 123 reports `total_events = 0` and flushes the unload
event. -/
theorem page_unload_reports_pending_count_witness :
    objGet (buildEvent "s" "t" "u" "page_unload"
        [("total_time_spent", JSVal.num ((123 : ℚ) - 0)),
         ("total_events", JSVal.num (initState.events.length : ℚ))])
        "total_time_spent"
      = some (JSVal.num ((123 : ℚ) - 0))
  ∧ objGet (buildEvent "s" "t" "u" "page_unload"
        [("total_time_spent", JSVal.num ((123 : ℚ) - 0)),
         ("total_events", JSVal.num (initState.events.length : ℚ))])
        "total_events"
      = some (JSVal.num (initState.events.length : ℚ))
  ∧ beforeUnload "s" "t" "u" 123 0 true true initState
      = { initState with
          events := [],
          sent := initState.sent ++ [initState.events
            ++ [buildEvent "s" "t" "u" "page_unload"
              [("total_time_spent", JSVal.num ((123 : ℚ) - 0)),
               ("total_events", JSVal.num (initState.events.length : ℚ))]]],
          calls := initState.calls + 1,
          total := initState.total + 1,
          allEvents := initState.allEvents
            ++ [buildEvent "s" "t" "u" "page_unload"
              [("total_time_spent", JSVal.num ((123 : ℚ) - 0)),
               ("total_events", JSVal.num (initState.events.length : ℚ))]] } :=
  page_unload_reports_pending_count "s" "t" "u" 123 0 initState (by decide)

/-! ### Inactivity detection (`startSessionTracking`) -/

/-- The inactivity mechanism of `startSessionTracking` (analytics.js lines
223-239): each qualifying input event (`mousedown`, `mousemove`,
`keypress`, `scroll`, `touchstart`) clears the pending timeout, sets
`isActive = true` and arms a fresh 5-minute (300000 ms) timeout whose
expiry sets `isActive = false` and emits one `session_inactive` event.  A
timeout armed at `lastReset` therefore fires exactly when no qualifying
event arrives strictly before `lastReset + 300000`.

`inactivityAux lastReset count ts endT` processes the qualifying-event
times `ts` (the timer was last armed at `lastReset`, `count`
`session_inactive` events emitted so far) and returns the `isActive` flag
at observation time `endT` together with the total number of
`session_inactive` events emitted. -/
def inactivityAux : Nat → Nat → List Nat → Nat → Bool × Nat
  | lastReset, count, [], endT =>
      if lastReset + 300000 ≤ endT then (false, count + 1) else (true, count)
  | lastReset, count, t :: ts, endT =>
      inactivityAux t (if lastReset + 300000 ≤ t then count + 1 else count) ts endT

/-- The whole session: the timer is first armed at `start` (the trailing
`resetInactivityTimer()` call), the qualifying events arrive at times `ts`,
and the session is observed at `endT`. -/
def inactivityRun (start : Nat) (ts : List Nat) (endT : Nat) : Bool × Nat :=
  inactivityAux start 0 ts endT

/-- Number of gaps of at least 5 minutes between consecutive entries of a
timeline. -/
def bigGapCount (l : List Nat) : Nat :=
  (l.zip l.tail).countP fun p => p.1 + 300000 ≤ p.2

theorem inactivityAux_eq (ts : List Nat) :
    ∀ (lastReset count endT : Nat),
      inactivityAux lastReset count ts endT
        = (decide (endT < ts.getLastD lastReset + 300000),
           count + bigGapCount (lastReset :: (ts ++ [endT]))) := by
  induction ts with
  | nil =>
    intro lastReset count endT
    rw [inactivityAux]
    simp only [List.getLastD_nil, List.nil_append]
    by_cases hle : lastReset + 300000 ≤ endT
    · rw [if_pos hle]
      have h1 : decide (endT < lastReset + 300000) = false := by
        simp only [decide_eq_false_iff_not, not_lt]
        omega
      have h2 : bigGapCount [lastReset, endT] = 1 := by
        simp [bigGapCount, hle]
      rw [h1, h2]
    · rw [if_neg hle]
      have h1 : decide (endT < lastReset + 300000) = true := by
        simp only [decide_eq_true_eq]
        omega
      have h2 : bigGapCount [lastReset, endT] = 0 := by
        simp [bigGapCount, hle]
      rw [h1, h2]
      simp
  | cons t ts ih =>
    intro lastReset count endT
    rw [inactivityAux, ih]
    simp only [List.getLastD_cons, Prod.mk.injEq, true_and]
    have hgap : bigGapCount (lastReset :: (t :: ts ++ [endT]))
        = (if lastReset + 300000 ≤ t then 1 else 0)
          + bigGapCount (t :: (ts ++ [endT])) := by
      simp only [bigGapCount, List.cons_append, List.zip_cons_cons, List.tail_cons,
        List.countP_cons, decide_eq_true_eq]
      by_cases hcase : lastReset + 300000 ≤ t
      · simp only [hcase, if_true]
        omega
      · simp only [hcase, if_false]
        omega
    rw [hgap]
    split <;> omega

/-- C4: with the timer first armed at `start` and qualifying input events
at times `ts`, observed at `endT`, the number of `session_inactive`
emissions equals the number of ≥ 5-minute gaps in the timeline
`start :: ts ++ [endT]` (exactly one per inactivity period), and the
session is active at `endT` exactly when less than 5 minutes have passed
since the last qualifying event; in particular, when every gap is below 5
minutes the session never goes inactive and no `session_inactive` event is
emitted. -/
theorem session_inactivity_gaps (start endT : Nat) (ts : List Nat) :
    inactivityRun start ts endT
      = (decide (endT < ts.getLastD start + 300000),
         bigGapCount (start :: (ts ++ [endT])))
  ∧ (bigGapCount (start :: (ts ++ [endT])) = 0 →
       inactivityRun start ts endT = (true, 0)) := by
  have hmain := inactivityAux_eq ts start 0 endT
  rw [Nat.zero_add] at hmain
  refine ⟨by rw [inactivityRun]; exact hmain, fun hzero => ?_⟩
  rw [inactivityRun, hmain, hzero]
  have hlast : endT < ts.getLastD start + 300000 := by
    have hmem : (ts.getLastD start, endT) ∈ ((start :: (ts ++ [endT])).zip
        (start :: (ts ++ [endT])).tail) := by
      clear hmain hzero
      induction ts generalizing start with
      | nil => simp
      | cons t ts ih =>
        simp only [List.getLastD_cons, List.cons_append, List.zip_cons_cons,
          List.tail_cons, List.mem_cons]
        right
        exact ih t
    by_contra hcon
    have := List.countP_eq_zero.mp hzero _ hmem
    simp only [decide_eq_true_eq] at this
    omega
  simp only [Prod.mk.injEq, decide_eq_true_eq]
  exact ⟨hlast, trivial⟩

/-- Witness for C4: gaps of 100 s and 150 s keep the session active with no
`session_inactive` emission. -/
theorem session_inactivity_gaps_witness :
    inactivityRun 0 [100000, 250000] 300001 = (true, 0) :=
  (session_inactivity_gaps 0 300001 [100000, 250000]).2 (by decide)

/-! ### Scroll depth (`trackScrollDepth`)

`trackScrollDepth` divides `window.scrollY` by
`document.documentElement.scrollHeight - window.innerHeight`, which is `0`
when the document exactly fills the viewport, so the IEEE-754 special
values are part of the claims.  `JSNum` models the JS numbers that can
arise here exactly: `NaN`, the two infinities, and finite values as exact
rationals (every value reaching this code is exactly representable). -/

/-- A JS number for the scroll computation. -/
inductive JSNum where
  | nan
  | inf
  | ninf
  | val (q : ℚ)
deriving DecidableEq, Repr

/-- JS subtraction (no `-0`: it never arises from these operands). -/
def jsSub : JSNum → JSNum → JSNum
  | .nan, _ => .nan
  | _, .nan => .nan
  | .inf, .inf => .nan
  | .inf, _ => .inf
  | .ninf, .ninf => .nan
  | .ninf, _ => .ninf
  | .val _, .inf => .ninf
  | .val _, .ninf => .inf
  | .val a, .val b => .val (a - b)

/-- JS division: `0/0 = NaN`, `x/0 = ±Infinity` for `x ≠ 0`. -/
def jsDiv : JSNum → JSNum → JSNum
  | .nan, _ => .nan
  | _, .nan => .nan
  | .inf, .inf => .nan
  | .inf, .ninf => .nan
  | .ninf, .inf => .nan
  | .ninf, .ninf => .nan
  | .inf, .val b => if b < 0 then .ninf else .inf
  | .ninf, .val b => if b < 0 then .inf else .ninf
  | .val _, .inf => .val 0
  | .val _, .ninf => .val 0
  | .val a, .val b =>
      if b = 0 then (if a = 0 then .nan else if 0 < a then .inf else .ninf)
      else .val (a / b)

/-- JS multiplication (as needed for `* 100`). -/
def jsMul : JSNum → JSNum → JSNum
  | .nan, _ => .nan
  | _, .nan => .nan
  | .inf, .inf => .inf
  | .inf, .ninf => .ninf
  | .ninf, .inf => .ninf
  | .ninf, .ninf => .inf
  | .inf, .val b => if b = 0 then .nan else if b < 0 then .ninf else .inf
  | .val a, .inf => if a = 0 then .nan else if a < 0 then .ninf else .inf
  | .ninf, .val b => if b = 0 then .nan else if b < 0 then .inf else .ninf
  | .val a, .ninf => if a = 0 then .nan else if a < 0 then .inf else .ninf
  | .val a, .val b => .val (a * b)

/-- `Math.round`: `⌊x + 0.5⌋`; `NaN` and the infinities pass through. -/
def jsRound : JSNum → JSNum
  | .nan => .nan
  | .inf => .inf
  | .ninf => .ninf
  | .val q => .val ((⌊q + 1 / 2⌋ : ℤ) : ℚ)

/-- JS `>=`: every comparison involving `NaN` is false. -/
def jsGe : JSNum → JSNum → Bool
  | .nan, _ => false
  | _, .nan => false
  | .inf, _ => true
  | .ninf, .ninf => true
  | .ninf, _ => false
  | .val _, .inf => false
  | .val _, .ninf => true
  | .val a, .val b => b ≤ a

/-- `Math.round((window.scrollY / (document.documentElement.scrollHeight -
window.innerHeight)) * 100)` (analytics.js line 173). -/
def scrollPercent (scrollY scrollHeight innerHeight : JSNum) : JSNum :=
  jsRound (jsMul (jsDiv scrollY (jsSub scrollHeight innerHeight)) (.val 100))

/-- One iteration of the `milestones.forEach` loop (analytics.js lines
177-187): the accumulator is the reached-milestones set paired with the
events emitted so far by this call. -/
def milestoneStep (p : JSNum) (acc : List ℚ × List ℚ) (m : ℚ) : List ℚ × List ℚ :=
  if jsGe p (.val m) && !(acc.1.contains m) then (acc.1 ++ [m], acc.2 ++ [m])
  else acc

/-- `AnalyticsManager.trackScrollDepth` (analytics.js lines 172-188):
returns the updated `this.scrollMilestones` set and the list of
`scroll_depth` milestone percentages emitted by this call. -/
def trackScrollDepth (scrollY scrollHeight innerHeight : JSNum)
    (reached : List ℚ) : List ℚ × List ℚ :=
  [(25 : ℚ), 50, 75, 100].foldl
    (milestoneStep (scrollPercent scrollY scrollHeight innerHeight)) (reached, [])

/-- A session's worth of debounced scroll samples: each input is
`(scrollY, scrollHeight, innerHeight)`; returns the final milestone set and
the concatenation of all emitted `scroll_depth` percentages. -/
def runScroll : List (JSNum × JSNum × JSNum) → List ℚ → List ℚ × List ℚ
  | [], reached => (reached, [])
  | i :: is, reached =>
      let sr := trackScrollDepth i.1 i.2.1 i.2.2 reached
      let rest := runScroll is sr.1
      (rest.1, sr.2 ++ rest.2)

theorem milestoneFold_eq (p : JSNum) :
    ∀ (ms : List ℚ), ms.Nodup → ∀ (reached out : List ℚ),
      ms.foldl (milestoneStep p) (reached, out)
        = (reached ++ ms.filter (fun m => jsGe p (.val m) && !reached.contains m),
           out ++ ms.filter (fun m => jsGe p (.val m) && !reached.contains m)) := by
  intro ms
  induction ms with
  | nil => intro _ reached out; simp
  | cons m ms ih =>
    intro hnd reached out
    obtain ⟨hm, hnd'⟩ := List.nodup_cons.mp hnd
    rw [List.foldl_cons, List.filter_cons]
    by_cases hc : (jsGe p (.val m) && !reached.contains m) = true
    · rw [if_pos hc]
      rw [milestoneStep, if_pos hc, ih hnd' (reached ++ [m]) (out ++ [m])]
      have hfilter : ms.filter (fun x => jsGe p (.val x) && !(reached ++ [m]).contains x)
          = ms.filter (fun x => jsGe p (.val x) && !reached.contains x) := by
        apply List.filter_congr
        intro x hx
        have hxm : x ≠ m := fun heq => hm (heq ▸ hx)
        simp [List.contains, hxm]
      rw [hfilter]
      simp [List.append_assoc]
    · rw [if_neg hc]
      rw [milestoneStep, if_neg hc, ih hnd' reached out]

theorem trackScrollDepth_eq (scrollY scrollHeight innerHeight : JSNum)
    (reached : List ℚ) :
    trackScrollDepth scrollY scrollHeight innerHeight reached
      = (reached ++ [(25 : ℚ), 50, 75, 100].filter
           (fun m => jsGe (scrollPercent scrollY scrollHeight innerHeight) (.val m)
             && !reached.contains m),
         [(25 : ℚ), 50, 75, 100].filter
           (fun m => jsGe (scrollPercent scrollY scrollHeight innerHeight) (.val m)
             && !reached.contains m)) := by
  rw [trackScrollDepth, milestoneFold_eq _ _ (by decide)]
  simp

/-- In a run, a given milestone is emitted at most once (never if already
reached), and it is emitted at some point iff some sample's computed scroll
percentage passes the `>=` test against it. -/
theorem runScroll_char (m : ℚ) (hm : m ∈ ([25, 50, 75, 100] : List ℚ)) :
    ∀ (inputs : List (JSNum × JSNum × JSNum)) (reached : List ℚ),
      (runScroll inputs reached).2.count m ≤ (if m ∈ reached then 0 else 1)
    ∧ ((m ∈ (runScroll inputs reached).2) ↔
        (m ∉ reached ∧ inputs.any fun i => jsGe (scrollPercent i.1 i.2.1 i.2.2) (.val m))) := by
  intro inputs
  induction inputs with
  | nil =>
    intro reached
    constructor
    · simp only [runScroll, List.count_nil]
      split <;> omega
    · simp [runScroll]
  | cons i is ih =>
    intro reached
    rw [runScroll]
    simp only [trackScrollDepth_eq]
    set fresh := [(25 : ℚ), 50, 75, 100].filter
      (fun x => jsGe (scrollPercent i.1 i.2.1 i.2.2) (.val x)
        && !reached.contains x) with hfresh
    obtain ⟨ihc, ihm⟩ := ih (reached ++ fresh)
    have hfreshnd : fresh.Nodup := by
      rw [hfresh]
      exact List.Nodup.filter _ (by decide)
    by_cases hr : m ∈ reached
    · have hmf : m ∉ fresh := by
        rw [hfresh]
        intro hcon
        have := (List.mem_filter.mp hcon).2
        simp at this
        exact this.2 hr
      have hral : m ∈ reached ++ fresh := List.mem_append.mpr (Or.inl hr)
      constructor
      · rw [if_pos hr]
        simp only [List.count_append]
        rw [List.count_eq_zero.mpr hmf]
        rw [if_pos hral] at ihc
        omega
      · simp only [List.mem_append]
        rw [if_pos hral] at ihc
        have hnot : m ∉ (runScroll is (reached ++ fresh)).2 :=
          List.count_eq_zero.mp (Nat.le_zero.mp ihc)
        constructor
        · intro hcon
          rcases hcon with hcon | hcon
          · exact absurd hcon hmf
          · exact absurd hcon hnot
        · intro ⟨hcon, _⟩
          exact absurd hr hcon
    · by_cases hcross : jsGe (scrollPercent i.1 i.2.1 i.2.2) (.val m) = true
      · have hmf : m ∈ fresh := by
          rw [hfresh]
          apply List.mem_filter.mpr
          refine ⟨hm, ?_⟩
          simp [hcross, hr, List.contains]
        have hral : m ∈ reached ++ fresh := List.mem_append.mpr (Or.inr hmf)
        rw [if_pos hral] at ihc
        have hnot : m ∉ (runScroll is (reached ++ fresh)).2 :=
          List.count_eq_zero.mp (Nat.le_zero.mp ihc)
        constructor
        · rw [if_neg hr]
          simp only [List.count_append]
          rw [List.count_eq_zero.mpr hnot]
          have : fresh.count m ≤ 1 := List.nodup_iff_count_le_one.mp hfreshnd m
          omega
        · simp only [List.mem_append, List.any_cons]
          constructor
          · intro _
            exact ⟨hr, by simp [hcross]⟩
          · intro _
            exact Or.inl hmf
      · have hmf : m ∉ fresh := by
          rw [hfresh]
          intro hcon
          have := (List.mem_filter.mp hcon).2
          simp only [Bool.and_eq_true] at this
          exact absurd this.1 hcross
        have hral : m ∉ reached ++ fresh := by
          simp only [List.mem_append]
          rintro (hcon | hcon)
          · exact hr hcon
          · exact hmf hcon
        rw [if_neg hral] at ihc
        obtain ⟨ihm1, ihm2⟩ := ihm
        constructor
        · rw [if_neg hr]
          simp only [List.count_append]
          rw [List.count_eq_zero.mpr hmf]
          omega
        · simp only [List.mem_append, List.any_cons]
          constructor
          · intro hcon
            rcases hcon with hcon | hcon
            · exact absurd hcon hmf
            · have := ihm1 hcon
              exact ⟨hr, by simp [this.2]⟩
          · intro ⟨_, hany⟩
            right
            apply ihm2
            refine ⟨hral, ?_⟩
            simpa [hcross] using hany

theorem scrollPercent_30 :
    scrollPercent (.val 300) (.val 1100) (.val 100) = .val 30 := by
  norm_num [scrollPercent, jsSub, jsDiv, jsMul, jsRound]

theorem scrollPercent_0 :
    scrollPercent (.val 0) (.val 1100) (.val 100) = .val 0 := by
  norm_num [scrollPercent, jsSub, jsDiv, jsMul, jsRound]

theorem scrollPercent_60 :
    scrollPercent (.val 600) (.val 1100) (.val 100) = .val 60 := by
  norm_num [scrollPercent, jsSub, jsDiv, jsMul, jsRound]

/-- C2: a `scroll_depth` event for each milestone in {25,50,75,100} fires
at most once per session, exactly when some sample first crosses it, and
never re-fires after scrolling back up and down; scrolling to 30%, back to
0%, then to 60% (here: scrollY 300, 0, 600 with scrollHeight 1100 and
innerHeight 100) emits exactly the two events 25 and 50. -/
theorem scroll_milestones_fire_once (inputs : List (JSNum × JSNum × JSNum))
    (m : ℚ) (hm : m ∈ ([25, 50, 75, 100] : List ℚ)) :
    (runScroll inputs []).2.count m ≤ 1
  ∧ ((m ∈ (runScroll inputs []).2) ↔
      inputs.any fun i => jsGe (scrollPercent i.1 i.2.1 i.2.2) (.val m))
  ∧ runScroll [(.val 300, .val 1100, .val 100), (.val 0, .val 1100, .val 100),
               (.val 600, .val 1100, .val 100)] []
      = ([25, 50], [25, 50]) := by
  obtain ⟨hc, hmem⟩ := runScroll_char m hm inputs []
  refine ⟨by simpa using hc, ?_, ?_⟩
  · rw [hmem]
    simp
  · simp only [runScroll, trackScrollDepth_eq, scrollPercent_30, scrollPercent_0,
      scrollPercent_60]
    decide

/-- Witness for C2 at milestone 25 with the concrete 30% → 0% → 60%
scenario. -/
theorem scroll_milestones_fire_once_witness :
    (runScroll [((JSNum.val 300), (JSNum.val 1100), (JSNum.val 100)),
                ((JSNum.val 0), (JSNum.val 1100), (JSNum.val 100)),
                ((JSNum.val 600), (JSNum.val 1100), (JSNum.val 100))] []).2.count 25 ≤ 1
  ∧ ((25 ∈ (runScroll [((JSNum.val 300), (JSNum.val 1100), (JSNum.val 100)),
                ((JSNum.val 0), (JSNum.val 1100), (JSNum.val 100)),
                ((JSNum.val 600), (JSNum.val 1100), (JSNum.val 100))] []).2) ↔
      [((JSNum.val 300), (JSNum.val 1100), (JSNum.val 100)),
       ((JSNum.val 0), (JSNum.val 1100), (JSNum.val 100)),
       ((JSNum.val 600), (JSNum.val 1100), (JSNum.val 100))].any
        fun i => jsGe (scrollPercent i.1 i.2.1 i.2.2) (.val 25))
  ∧ runScroll [(.val 300, .val 1100, .val 100), (.val 0, .val 1100, .val 100),
               (.val 600, .val 1100, .val 100)] []
      = ([25, 50], [25, 50]) :=
  scroll_milestones_fire_once
    [((JSNum.val 300), (JSNum.val 1100), (JSNum.val 100)),
     ((JSNum.val 0), (JSNum.val 1100), (JSNum.val 100)),
     ((JSNum.val 600), (JSNum.val 1100), (JSNum.val 100))] 25 (by decide)

/-- C10: when the document height equals the viewport height the
denominator is 0 and with `scrollY = 0` the computed scroll percentage is
`0/0 = NaN`; `NaN >= milestone` is false for every milestone, so no
`scroll_depth` event fires and the milestone set is untouched (and, the
embedding being total, no exception is raised). -/
theorem scroll_percent_nan_no_events (h : ℚ) (reached : List ℚ) :
    scrollPercent (.val 0) (.val h) (.val h) = .nan
  ∧ trackScrollDepth (.val 0) (.val h) (.val h) reached = (reached, []) := by
  have hnan : scrollPercent (.val 0) (.val h) (.val h) = .nan := by
    simp [scrollPercent, jsSub, sub_self, jsDiv, jsMul, jsRound]
  refine ⟨hnan, ?_⟩
  rw [trackScrollDepth_eq, hnan]
  simp [jsGe]

/-! ### Mouse heatmap (`trackMousePosition`) -/

/-- `this.heatmapData`: a JS object whose keys are grid-cell strings and
whose values are hit counters, in insertion order. -/
abbrev Buckets := List (String × Nat)

/-- The grid key (analytics.js lines 192-197): grid size 50,
`Math.floor(x / 50)` and `Math.floor(y / 50)` joined as `gridX,gridY`. -/
def cellKey (x y : ℚ) : String :=
  toString ⌊x / 50⌋ ++ "," ++ toString ⌊y / 50⌋

/-- `this.heatmapData[key] = (this.heatmapData[key] || 0) + 1`: increment an
existing bucket in place (JS objects keep insertion order), or append a new
one with count 1. -/
def bump (b : Buckets) (k : String) : Buckets :=
  if b.any fun p => p.1 = k then
    b.map fun p => if p.1 = k then (p.1, p.2 + 1) else p
  else b ++ [(k, 1)]

/-- The order of the comparator `([,a], [,b]) => b - a`: descending by
count. -/
def hotter (p q : String × Nat) : Prop := q.2 ≤ p.2

instance : DecidableRel hotter := fun p q => Nat.decLe q.2 p.2

instance : IsTotal (String × Nat) hotter := ⟨fun p q => Nat.le_total q.2 p.2⟩

instance : IsTrans (String × Nat) hotter := ⟨fun _ _ _ h1 h2 => le_trans h2 h1⟩

/-- `Object.entries(this.heatmapData).sort(([,a], [,b]) => b - a).slice(0, 5)`:
JS `Array.prototype.sort` is stable, so it produces the unique stable
descending arrangement — which is what insertion sort computes. -/
def hotSpots (b : Buckets) : Buckets :=
  (List.insertionSort hotter b).take 5

/-- `AnalyticsManager.trackMousePosition` (analytics.js lines 190-210):
bump the bucket of the sample's grid cell; if the number of buckets is a
multiple of 20, emit a `heatmap_data` event carrying the top-5 buckets. -/
def trackMousePosition (x y : ℚ) (b : Buckets) : Buckets × Option Buckets :=
  let key := cellKey x y
  let b' := bump b key
  if b'.length % 20 = 0 then (b', some (hotSpots b')) else (b', none)

/-- A sequence of debounced mouse samples: final buckets and the list of
emitted `heatmap_data` hot-spot payloads. -/
def runHeat : List (ℚ × ℚ) → Buckets → Buckets × List Buckets
  | [], b => (b, [])
  | s :: ss, b =>
      let step := trackMousePosition s.1 s.2 b
      let rest := runHeat ss step.1
      (rest.1, step.2.toList ++ rest.2)

theorem bump_keys (b : Buckets) (k : String) :
    (bump b k).map Prod.fst
      = if k ∈ b.map Prod.fst then b.map Prod.fst
        else b.map Prod.fst ++ [k] := by
  have hany : (b.any fun p => p.1 = k) = true ↔ k ∈ b.map Prod.fst := by
    simp only [List.any_eq_true, List.mem_map, decide_eq_true_eq]
  by_cases h : k ∈ b.map Prod.fst
  · rw [if_pos h, bump, if_pos (hany.mpr h), List.map_map]
    apply List.map_congr_left
    intro p _
    simp only [Function.comp_apply]
    split <;> rfl
  · rw [if_neg h, bump, if_neg (fun hc => h (hany.mp hc))]
    simp

theorem runHeat_buckets :
    ∀ (samples : List (ℚ × ℚ)) (b : Buckets), (b.map Prod.fst).Nodup →
      ((runHeat samples b).1.map Prod.fst).Nodup
    ∧ (∀ k, k ∈ (runHeat samples b).1.map Prod.fst ↔
          (k ∈ b.map Prod.fst ∨ k ∈ samples.map fun s => cellKey s.1 s.2)) := by
  intro samples
  induction samples with
  | nil =>
    intro b hnd
    refine ⟨hnd, fun k => ?_⟩
    simp [runHeat]
  | cons s ss ih =>
    intro b hnd
    rw [runHeat]
    simp only [trackMousePosition]
    have hsame : ∀ (u : Buckets × Option Buckets),
        u = (if (bump b (cellKey s.1 s.2)).length % 20 = 0 then
              (bump b (cellKey s.1 s.2), some (hotSpots (bump b (cellKey s.1 s.2))))
             else (bump b (cellKey s.1 s.2), none)) → u.1 = bump b (cellKey s.1 s.2) := by
      intro u hu
      rw [hu]
      split <;> rfl
    rw [hsame _ rfl]
    have hbnd : ((bump b (cellKey s.1 s.2)).map Prod.fst).Nodup := by
      rw [bump_keys]
      split
      · exact hnd
      · rename_i hnew
        rw [List.nodup_append]
        exact ⟨hnd, List.nodup_singleton _, by simpa using hnew⟩
    have hbmem : ∀ k, k ∈ (bump b (cellKey s.1 s.2)).map Prod.fst ↔
        (k ∈ b.map Prod.fst ∨ k = cellKey s.1 s.2) := by
      intro k
      rw [bump_keys]
      split
      · rename_i hin
        constructor
        · exact Or.inl
        · rintro (hk | rfl)
          · exact hk
          · exact hin
      · simp
    obtain ⟨ihnd, ihmem⟩ := ih (bump b (cellKey s.1 s.2)) hbnd
    refine ⟨ihnd, fun k => ?_⟩
    rw [ihmem k, hbmem k]
    simp only [List.map_cons, List.mem_cons]
    tauto

/-- Counterexample to C6: after 20 samples in 20 distinct grid cells (one
emission), a 21st sample landing in the already-seen cell `0,0` leaves the
distinct-cell count at 20 — still a multiple of 20 — so a second
`heatmap_data` event is emitted by a sample that observes no new cell. -/
theorem heatmap_counterexample :
    cellKey 0 0 ∈ ([((0 : ℚ), (0 : ℚ)), (50, 0), (100, 0), (150, 0), (200, 0),
        (250, 0), (300, 0), (350, 0), (400, 0), (450, 0), (500, 0), (550, 0),
        (600, 0), (650, 0), (700, 0), (750, 0), (800, 0), (850, 0), (900, 0),
        (950, 0)].map fun s => cellKey s.1 s.2)
  ∧ (runHeat [((0 : ℚ), (0 : ℚ)), (50, 0), (100, 0), (150, 0), (200, 0),
        (250, 0), (300, 0), (350, 0), (400, 0), (450, 0), (500, 0), (550, 0),
        (600, 0), (650, 0), (700, 0), (750, 0), (800, 0), (850, 0), (900, 0),
        (950, 0)] []).2.length = 1
  ∧ (runHeat [((0 : ℚ), (0 : ℚ)), (50, 0), (100, 0), (150, 0), (200, 0),
        (250, 0), (300, 0), (350, 0), (400, 0), (450, 0), (500, 0), (550, 0),
        (600, 0), (650, 0), (700, 0), (750, 0), (800, 0), (850, 0), (900, 0),
        (950, 0), (0, 0)] []).2.length = 2 := by
  refine ⟨?_, ?_, ?_⟩ <;> with_unfolding_all decide

/-- C6 amended: a `heatmap_data` event is emitted exactly on those samples
after which the number of distinct grid cells observed is a (positive)
multiple of 20 — including samples that land in an already-seen cell while
the count stays at such a multiple, so the event can repeat without a new
cell.  Each emitted event carries the top 5 buckets: the stable descending
arrangement's first five entries, sorted by count, forming with the rest a
permutation of all buckets, every dropped bucket counting no more than any
carried one. -/
theorem heatmap_emits_on_multiples (samples : List (ℚ × ℚ)) (x y : ℚ) :
    ((trackMousePosition x y (runHeat samples []).1).2.isSome = true
      ↔ (((samples ++ [(x, y)]).map fun s => cellKey s.1 s.2).dedup.length % 20 = 0))
  ∧ (∀ hs, (trackMousePosition x y (runHeat samples []).1).2 = some hs →
      hs = hotSpots (bump (runHeat samples []).1 (cellKey x y))
      ∧ hs.Sorted hotter
      ∧ List.Perm
          (hs ++ (List.insertionSort hotter
            (bump (runHeat samples []).1 (cellKey x y))).drop 5)
          (bump (runHeat samples []).1 (cellKey x y))
      ∧ ∀ p ∈ hs, ∀ q ∈ (List.insertionSort hotter
            (bump (runHeat samples []).1 (cellKey x y))).drop 5, q.2 ≤ p.2) := by
  obtain ⟨hnd, hmem⟩ := runHeat_buckets samples [] (by simp)
  have hbnd : ((bump (runHeat samples []).1 (cellKey x y)).map Prod.fst).Nodup := by
    rw [bump_keys]
    split
    · exact hnd
    · rename_i hnew
      rw [List.nodup_append]
      exact ⟨hnd, List.nodup_singleton _, by simpa using hnew⟩
  have hbmem : ∀ k, k ∈ (bump (runHeat samples []).1 (cellKey x y)).map Prod.fst ↔
      k ∈ ((samples ++ [(x, y)]).map fun s => cellKey s.1 s.2) := by
    intro k
    rw [bump_keys]
    split
    · rename_i hin
      rw [hmem] at hin ⊢
      simp only [List.map_nil, List.not_mem_nil, false_or] at hin ⊢
      simp only [List.map_append, List.mem_append, List.map_cons, List.map_nil,
        List.mem_singleton, List.mem_cons, List.not_mem_nil, or_false]
      constructor
      · exact Or.inl
      · rintro (hk | rfl)
        · exact hk
        · exact hin
    · rw [List.mem_append, hmem]
      simp [or_assoc]
  have hperm : List.Perm ((bump (runHeat samples []).1 (cellKey x y)).map Prod.fst)
      (((samples ++ [(x, y)]).map fun s => cellKey s.1 s.2).dedup) := by
    rw [List.perm_ext_iff_of_nodup hbnd (List.nodup_dedup _)]
    intro k
    rw [hbmem k, List.mem_dedup]
  have hlen : (bump (runHeat samples []).1 (cellKey x y)).length
      = (((samples ++ [(x, y)]).map fun s => cellKey s.1 s.2).dedup).length := by
    have := hperm.length_eq
    simpa using this
  constructor
  · simp only [trackMousePosition]
    rw [← hlen]
    split
    · rename_i hc
      simpa using hc
    · rename_i hc
      simpa using hc
  · intro hs hsome
    have hs_eq : hs = hotSpots (bump (runHeat samples []).1 (cellKey x y)) := by
      simp only [trackMousePosition] at hsome
      rcases em ((bump (runHeat samples []).1 (cellKey x y)).length % 20 = 0) with hc | hc
      · rw [if_pos hc] at hsome
        exact (Option.some.injEq _ _ ▸ hsome).symm
      · rw [if_neg hc] at hsome
        exact absurd hsome (by simp)
    have hsorted_full : (List.insertionSort hotter
        (bump (runHeat samples []).1 (cellKey x y))).Sorted hotter :=
      List.sorted_insertionSort hotter _
    have hsplit := List.take_append_drop 5
      (List.insertionSort hotter (bump (runHeat samples []).1 (cellKey x y)))
    have hpair : (List.insertionSort hotter
        (bump (runHeat samples []).1 (cellKey x y))).Pairwise hotter := hsorted_full
    rw [← hsplit] at hpair
    obtain ⟨hp1, _, hcross⟩ := List.pairwise_append.mp hpair
    refine ⟨hs_eq, ?_, ?_, ?_⟩
    · rw [hs_eq, hotSpots]
      exact hp1
    · rw [hs_eq, hotSpots, hsplit]
      exact List.perm_insertionSort hotter _
    · intro p hp q hq
      exact hcross p (by rw [hs_eq, hotSpots] at hp; exact hp) q hq

/-- Witness for C6's amended statement: nineteen distinct cells, then a
sample in a fresh twentieth cell — the emission fires and carries a
descending top-5. -/
theorem heatmap_emits_on_multiples_witness :
    (trackMousePosition 950 0 (runHeat [((0 : ℚ), (0 : ℚ)), (50, 0), (100, 0),
        (150, 0), (200, 0), (250, 0), (300, 0), (350, 0), (400, 0), (450, 0),
        (500, 0), (550, 0), (600, 0), (650, 0), (700, 0), (750, 0), (800, 0),
        (850, 0), (900, 0)] []).1).2.isSome = true
  ∧ (hotSpots (bump (runHeat [((0 : ℚ), (0 : ℚ)), (50, 0), (100, 0),
        (150, 0), (200, 0), (250, 0), (300, 0), (350, 0), (400, 0), (450, 0),
        (500, 0), (550, 0), (600, 0), (650, 0), (700, 0), (750, 0), (800, 0),
        (850, 0), (900, 0)] []).1 (cellKey 950 0))).Sorted hotter := by
  have h := heatmap_emits_on_multiples [((0 : ℚ), (0 : ℚ)), (50, 0), (100, 0),
    (150, 0), (200, 0), (250, 0), (300, 0), (350, 0), (400, 0), (450, 0),
    (500, 0), (550, 0), (600, 0), (650, 0), (700, 0), (750, 0), (800, 0),
    (850, 0), (900, 0)] 950 0
  have hcard : ((([((0 : ℚ), (0 : ℚ)), (50, 0), (100, 0),
      (150, 0), (200, 0), (250, 0), (300, 0), (350, 0), (400, 0), (450, 0),
      (500, 0), (550, 0), (600, 0), (650, 0), (700, 0), (750, 0), (800, 0),
      (850, 0), (900, 0)] ++ [((950 : ℚ), (0 : ℚ))]).map
        fun s => cellKey s.1 s.2).dedup.length % 20 = 0) := by
    with_unfolding_all decide
  have hsome := h.1.mpr hcard
  refine ⟨hsome, ?_⟩
  obtain ⟨hs, hhs⟩ := Option.isSome_iff_exists.mp hsome
  have := h.2 hs hhs
  rw [← this.1]
  exact this.2.1

end AnalyticsJS
